import Mathlib

/-!
Verification of the actor execution loop of a streaming dataflow engine
(`rust/stream/src/executor/actor.rs`) and of the batch S3 file-scan
executor's file-format check (`src/batch/src/executor/s3_file_scan.rs`).

The actor owns one stream consumer and polls it in a loop.  From the
actor's point of view a consumer is the sequence of answers its `next()`
calls return, so the loop is embedded as a pure function over a finite
list of poll results: an exhausted list means the consumer is still
suspended and the loop would keep waiting, which models the infinite loop
without a terminal result.
-/

/-- Modelled from the spec: the `Mutation` control-instruction variant
family is declared outside the shown sources (`use super::Mutation`).  The
spec guarantees a `Stop` variant, allows a barrier to carry no
instruction, and treats every other variant as opaque to the loop. -/
inductive Mutation where
  | Nothing
  | Stop
  | Other (payload : Nat)
deriving DecidableEq, Repr

/-- `matches!(barrier.mutation, Mutation::Stop)` from `Actor::run`. -/
def Mutation.isStop : Mutation → Bool
  | .Stop => true
  | _ => false

/-- Modelled from the spec: `Barrier` is declared outside the shown
sources.  It is an immutable message with a totally ordered `epoch`
(a `u64` in the engine, hence `Nat` here) and a mutation. -/
structure Barrier where
  epoch : Nat
  mutation : Mutation
deriving DecidableEq, Repr

/-- One answer of the consumer's `next()` call: the Rust type is
`Result<Option<Barrier>>`; the error payload is opaque to the loop and
embedded as a `Nat` identifier. -/
inductive PollResult where
  | ok (b : Option Barrier)
  | err (e : Nat)
deriving DecidableEq, Repr

/-- A poll result is terminal when it makes `Actor::run` return: a
barrier whose mutation is `Stop`, or an error. -/
def PollResult.isTerminal : PollResult → Bool
  | .ok (some b) => b.mutation.isStop
  | .ok none => false
  | .err _ => true

/-- `format!("{:03}", n)`: decimal, left-padded with zeros to width 3. -/
def pad3 (n : Nat) : String :=
  if n < 10 then "00" ++ toString n
  else if n < 100 then "0" ++ toString n
  else toString n

/-- `format!("actor_poll_{:03}", id)` from `Actor::run`. -/
def spanName (id : Nat) : String := "actor_poll_" ++ pad3 id

/-- The tracing span built by `trace_span!("actor_poll", otel.name = …,
actor_id = …, next = "Outbound", epoch = …)`.  The epoch field is an
`Int` because the initial span uses the sentinel `-1`, outside the `u64`
epoch domain. -/
structure Span where
  name : String
  actorId : Nat
  next : String
  epoch : Int
deriving DecidableEq, Repr

/-- Builds the span exactly as both `trace_span!` calls in `Actor::run`
do, differing only in the epoch field. -/
def mkSpan (id : Nat) (epoch : Int) : Span :=
  ⟨spanName id, id, "Outbound", epoch⟩

/-- The value `Actor::run` returns: `Ok(())` or `Err(err)`. -/
inductive RunReturn where
  | ok
  | error (e : Nat)
deriving DecidableEq, Repr

/-- Everything observable about one execution of `Actor::run` over a
finite prefix of the consumer's answers: the number of `next()` calls
performed, every span value bound during the run (in order), every
error logged through `warn!`, and the returned value — `none` when the
prefix ran out with the loop still polling. -/
structure RunTrace where
  polls : Nat
  spans : List Span
  warnings : List Nat
  outcome : Option RunReturn
deriving DecidableEq, Repr

/-- The `loop { match self.consumer.next().await { … } }` body of
`Actor::run`, one list element per completed `next()` call:
`Ok(Some(barrier))` breaks on a `Stop` mutation and otherwise rebinds
the span to the barrier's epoch; `Ok(None)` continues; `Err(err)` logs a
warning and returns the error.  Results after a terminal one are never
polled. -/
def runLoop (id : Nat) : List PollResult → RunTrace
  | [] => ⟨0, [], [], none⟩
  | .ok (some b) :: rest =>
    if b.mutation.isStop then
      ⟨1, [], [], some .ok⟩
    else
      let t := runLoop id rest
      ⟨t.polls + 1, mkSpan id (b.epoch : Int) :: t.spans, t.warnings, t.outcome⟩
  | .ok none :: rest =>
    let t := runLoop id rest
    ⟨t.polls + 1, t.spans, t.warnings, t.outcome⟩
  | .err e :: _ => ⟨1, [], [e], some (.error e)⟩

/-- `Actor`: exclusive ownership of one stream consumer (viewed as the
sequence of its successive poll answers) and a numeric identity. -/
structure Actor where
  consumer : Nat → PollResult
  id : Nat

/-- `Actor::new(consumer, id)`: plain field assignment, total, no
side effects. -/
def Actor.new (consumer : Nat → PollResult) (id : Nat) : Actor :=
  ⟨consumer, id⟩

/-- `Actor::run` driven by a given finite list of poll answers.  It
first binds the initial span with the sentinel epoch `-1`, then enters
the loop. -/
def Actor.runOn (a : Actor) (results : List PollResult) : RunTrace :=
  let t := runLoop a.id results
  ⟨t.polls, mkSpan a.id (-1) :: t.spans, t.warnings, t.outcome⟩

/-- `Actor::run` where the consumer is polled for the first `fuel`
answers of the actor's own consumer. -/
def Actor.run (a : Actor) (fuel : Nat) : RunTrace :=
  a.runOn ((List.range fuel).map a.consumer)

/-- The span rebinding a non-terminal poll result causes, if any:
a barrier with a non-`Stop` mutation rebinds the span to its epoch,
`Ok(None)` leaves it alone. -/
def PollResult.tagRefresh (id : Nat) : PollResult → Option Span
  | .ok (some b) => if b.mutation.isStop then none else some (mkSpan id (b.epoch : Int))
  | _ => none

/-- The epoch a poll result rebinds the tracing span to, if any. -/
def PollResult.refreshEpoch : PollResult → Option Nat
  | .ok (some b) => if b.mutation.isStop then none else some b.epoch
  | _ => none

/-- Two poll results that agree except possibly in the value of a
non-`Stop` mutation carried by a barrier. -/
def mutationAgnostic : PollResult → PollResult → Prop := fun r1 r2 =>
  r1 = r2 ∨ ∃ e m1 m2, m1.isStop = false ∧ m2.isStop = false ∧
    r1 = PollResult.ok (some ⟨e, m1⟩) ∧ r2 = PollResult.ok (some ⟨e, m2⟩)

/-- `FileFormat` from `src/batch/src/executor/s3_file_scan.rs`: the enum
has the single variant `Parquet`. -/
inductive FileFormat where
  | Parquet
deriving DecidableEq, Repr

/-- Modelled from the spec: the engine's `Schema` type is declared
outside the shown sources and the spec leaves batch executors out of
scope; the file-format check never inspects it, so it is kept as a bare
field list. -/
structure Schema where
  fields : List String
deriving DecidableEq, Repr

/-- `S3FileScanExecutor`: the batch executor's stored fields. -/
structure S3FileScanExecutor where
  file_format : FileFormat
  location : String
  s3_region : String
  s3_access_key : String
  s3_secret_key : String
  batch_size : Nat
  schema : Schema
  identity : String
deriving Repr

/-- `S3FileScanExecutor::new`: plain field assignment. -/
def S3FileScanExecutor.new (file_format : FileFormat)
    (location s3_region s3_access_key s3_secret_key : String)
    (batch_size : Nat) (schema : Schema) (identity : String) :
    S3FileScanExecutor :=
  ⟨file_format, location, s3_region, s3_access_key, s3_secret_key,
    batch_size, schema, identity⟩

/-- The `assert_eq!(self.file_format, FileFormat::Parquet)` guard at the
top of `do_execute`: `true` exactly when the assertion passes. -/
def S3FileScanExecutor.formatAssertion (e : S3FileScanExecutor) : Bool :=
  decide (e.file_format = FileFormat.Parquet)

/-- Processing a prefix of non-terminal results costs one poll each,
appends exactly the span rebindings those results cause, and leaves the
warnings and the outcome to the remainder of the run. -/
theorem runLoop_append (id : Nat) (pre rest : List PollResult)
    (h : ∀ r ∈ pre, r.isTerminal = false) :
    runLoop id (pre ++ rest) =
      ⟨pre.length + (runLoop id rest).polls,
       pre.filterMap (PollResult.tagRefresh id) ++ (runLoop id rest).spans,
       (runLoop id rest).warnings,
       (runLoop id rest).outcome⟩ := by
  induction pre with
  | nil => simp [runLoop]
  | cons r pre ih =>
    have hr := h r (List.mem_cons_self r pre)
    have hpre : ∀ x ∈ pre, x.isTerminal = false :=
      fun x hx => h x (List.mem_cons_of_mem r hx)
    cases r with
    | ok ob =>
      cases ob with
      | none =>
        simp [runLoop, List.append_eq, ih hpre, PollResult.tagRefresh]
        omega
      | some b =>
        have hb : b.mutation.isStop = false := by
          simpa [PollResult.isTerminal] using hr
        simp [runLoop, hb, List.append_eq, ih hpre, PollResult.tagRefresh]
        omega
    | err e => simp [PollResult.isTerminal] at hr

/-- C1: a run over zero or more non-terminal results followed by a
barrier carrying `Stop` returns `Ok(())`, having polled once past each
non-terminal result and once for the `Stop` barrier; whatever follows
the `Stop` barrier is never polled. -/
theorem actor_run_stop_terminates (a : Actor) (pre : List PollResult)
    (h : ∀ r ∈ pre, r.isTerminal = false) (e : Nat) (suffix : List PollResult) :
    (a.runOn (pre ++ .ok (some ⟨e, .Stop⟩) :: suffix)).outcome = some RunReturn.ok ∧
    (a.runOn (pre ++ .ok (some ⟨e, .Stop⟩) :: suffix)).polls = pre.length + 1 := by
  have hap := runLoop_append a.id pre (.ok (some ⟨e, .Stop⟩) :: suffix) h
  simp [Actor.runOn, hap, runLoop, Mutation.isStop]

/-- C1 witness: Scenario A — [progressed, barrier(1, None), progressed,
barrier(2, Stop)] returns success after exactly 4 polls. -/
theorem actor_run_stop_terminates_witness :
    ((Actor.new (fun _ => .ok none) 1).runOn
        ([.ok none, .ok (some ⟨1, .Nothing⟩), .ok none] ++
          .ok (some ⟨2, .Stop⟩) :: [])).outcome = some RunReturn.ok ∧
    ((Actor.new (fun _ => .ok none) 1).runOn
        ([.ok none, .ok (some ⟨1, .Nothing⟩), .ok none] ++
          .ok (some ⟨2, .Stop⟩) :: [])).polls = 4 :=
  actor_run_stop_terminates (Actor.new (fun _ => .ok none) 1)
    [.ok none, .ok (some ⟨1, .Nothing⟩), .ok none] (by decide) 2 []

/-- C2: when the first failure sits at position `k` (after `k - 1`
non-terminal results), the run returns exactly that error after exactly
`k` polls — nothing after the failure is polled — and the error has been
logged as a warning. -/
theorem actor_run_failure_propagates (a : Actor) (pre : List PollResult)
    (h : ∀ r ∈ pre, r.isTerminal = false) (e : Nat) (suffix : List PollResult) :
    (a.runOn (pre ++ .err e :: suffix)).outcome = some (RunReturn.error e) ∧
    (a.runOn (pre ++ .err e :: suffix)).polls = pre.length + 1 ∧
    (a.runOn (pre ++ .err e :: suffix)).warnings = [e] := by
  have hap := runLoop_append a.id pre (.err e :: suffix) h
  simp [Actor.runOn, hap, runLoop]

/-- C2 witness: Scenario B — [barrier(1, None), failure(42)] returns
error 42 after exactly 2 polls, with the warning logged. -/
theorem actor_run_failure_propagates_witness :
    ((Actor.new (fun _ => .ok none) 1).runOn
        ([.ok (some ⟨1, .Nothing⟩)] ++ .err 42 :: [])).outcome
      = some (RunReturn.error 42) ∧
    ((Actor.new (fun _ => .ok none) 1).runOn
        ([.ok (some ⟨1, .Nothing⟩)] ++ .err 42 :: [])).polls = 2 ∧
    ((Actor.new (fun _ => .ok none) 1).runOn
        ([.ok (some ⟨1, .Nothing⟩)] ++ .err 42 :: [])).warnings = [42] :=
  actor_run_failure_propagates (Actor.new (fun _ => .ok none) 1)
    [.ok (some ⟨1, .Nothing⟩)] (by decide) 42 []

/-- The span refreshes caused by a list of poll results carry exactly the
epochs `refreshEpoch` extracts, cast into the span's `Int` epoch field. -/
theorem filterMap_tagRefresh_epoch (id : Nat) (rs : List PollResult) :
    (rs.filterMap (PollResult.tagRefresh id)).map Span.epoch
      = (rs.filterMap PollResult.refreshEpoch).map (fun n : Nat => (n : Int)) := by
  induction rs with
  | nil => rfl
  | cons r rest ih =>
    cases r with
    | ok ob =>
      cases ob with
      | none => simpa [PollResult.tagRefresh, PollResult.refreshEpoch] using ih
      | some b =>
        by_cases hb : b.mutation.isStop
        · simp [PollResult.tagRefresh, PollResult.refreshEpoch, hb, ih]
        · simp [PollResult.tagRefresh, PollResult.refreshEpoch, hb, ih, mkSpan]
    | err e => simpa [PollResult.tagRefresh, PollResult.refreshEpoch] using ih

/-- C3 counterexample: in the run over [barrier(1, None), barrier(2,
Stop)] the second barrier is processed (two polls, successful return),
yet no span ever reflects its epoch 2 — the loop breaks on `Stop` before
the span refresh, so the bound spans carry only the sentinel `-1` and
the stale epoch 1.  The claim "the tag after processing the i-th barrier
reflects epoch e_i" fails at i = 2. -/
theorem actor_tag_stop_counterexample :
    ((Actor.new (fun _ => .ok none) 7).runOn
        [.ok (some ⟨1, .Nothing⟩), .ok (some ⟨2, .Stop⟩)]).polls = 2 ∧
    ((Actor.new (fun _ => .ok none) 7).runOn
        [.ok (some ⟨1, .Nothing⟩), .ok (some ⟨2, .Stop⟩)]).outcome
      = some RunReturn.ok ∧
    List.map Span.epoch ((Actor.new (fun _ => .ok none) 7).runOn
        [.ok (some ⟨1, .Nothing⟩), .ok (some ⟨2, .Stop⟩)]).spans = [-1, 1] := by
  decide

/-- C3 amended: over non-terminal results (optionally closed by a `Stop`
barrier) the bound spans are exactly the sentinel `-1` followed by the
epochs of the non-`Stop` barriers in order of processing — so after the
i-th non-`Stop` barrier the tag reflects its epoch, before the first
barrier it is the sentinel, and a `Stop` barrier's epoch is never
recorded; when the refreshed epochs are non-decreasing the whole tag
history is non-decreasing (never stale, never future). -/
theorem actor_tag_epochs (a : Actor) (pre : List PollResult)
    (h : ∀ r ∈ pre, r.isTerminal = false) (e : Nat) :
    (a.runOn (pre ++ [.ok (some ⟨e, .Stop⟩)])).spans
        = mkSpan a.id (-1) :: pre.filterMap (PollResult.tagRefresh a.id) ∧
    (a.runOn pre).spans
        = mkSpan a.id (-1) :: pre.filterMap (PollResult.tagRefresh a.id) ∧
    (List.Chain' (· ≤ ·) (pre.filterMap PollResult.refreshEpoch) →
      List.Chain' (· ≤ ·) ((a.runOn pre).spans.map Span.epoch)) := by
  have hap := runLoop_append a.id pre [.ok (some ⟨e, .Stop⟩)] h
  have hap2 := runLoop_append a.id pre [] h
  rw [List.append_nil] at hap2
  have h1 : (a.runOn (pre ++ [.ok (some ⟨e, .Stop⟩)])).spans
      = mkSpan a.id (-1) :: pre.filterMap (PollResult.tagRefresh a.id) := by
    simp [Actor.runOn, hap, runLoop, Mutation.isStop]
  have h2 : (a.runOn pre).spans
      = mkSpan a.id (-1) :: pre.filterMap (PollResult.tagRefresh a.id) := by
    simp [Actor.runOn, hap2, runLoop]
  refine ⟨h1, h2, fun hmono => ?_⟩
  rw [h2, List.map_cons, filterMap_tagRefresh_epoch]
  cases hl : pre.filterMap PollResult.refreshEpoch with
  | nil => simp
  | cons x xs =>
    rw [hl] at hmono
    rw [List.map_cons]
    refine List.chain'_cons.mpr ⟨?_, ?_⟩
    · show (-1 : Int) ≤ (x : Int)
      omega
    · rw [← List.map_cons]
      exact (List.chain'_map _).mpr (hmono.imp (fun p q hpq => by exact_mod_cast hpq))

/-- C3 amended witness: a concrete run over [progressed, barrier(1,
None), barrier(3, Other)] closed by barrier(4, Stop): the spans are the
sentinel then epochs 1 and 3, and the tag history is non-decreasing. -/
theorem actor_tag_epochs_witness :
    ((Actor.new (fun _ => .ok none) 7).runOn
        ([.ok none, .ok (some ⟨1, .Nothing⟩), .ok (some ⟨3, .Other 0⟩)]
          ++ [.ok (some ⟨4, .Stop⟩)])).spans
      = mkSpan 7 (-1) ::
          List.filterMap (PollResult.tagRefresh 7)
            [.ok none, .ok (some ⟨1, .Nothing⟩), .ok (some ⟨3, .Other 0⟩)] ∧
    List.Chain' (· ≤ ·)
      (((Actor.new (fun _ => .ok none) 7).runOn
        [.ok none, .ok (some ⟨1, .Nothing⟩), .ok (some ⟨3, .Other 0⟩)]).spans.map
          Span.epoch) :=
  ⟨(actor_tag_epochs (Actor.new (fun _ => .ok none) 7)
      [.ok none, .ok (some ⟨1, .Nothing⟩), .ok (some ⟨3, .Other 0⟩)]
      (by decide) 4).1,
   (actor_tag_epochs (Actor.new (fun _ => .ok none) 7)
      [.ok none, .ok (some ⟨1, .Nothing⟩), .ok (some ⟨3, .Other 0⟩)]
      (by decide) 4).2.2
     (show List.Chain' (· ≤ ·) [1, 3] from List.chain'_pair.mpr (by norm_num))⟩

/-- C4 counterexample: when the very first poll yields barrier(5, Stop),
the run returns success after one poll but the `Stop` barrier's epoch 5
is never recorded in any span — the loop breaks before the refresh, so
the claim's "epoch still recorded once before termination" is false. -/
theorem actor_stop_first_counterexample :
    ((Actor.new (fun _ => .ok none) 3).runOn [.ok (some ⟨5, .Stop⟩)]).polls = 1 ∧
    ((Actor.new (fun _ => .ok none) 3).runOn [.ok (some ⟨5, .Stop⟩)]).outcome
      = some RunReturn.ok ∧
    (5 : Int) ∉ List.map Span.epoch
      ((Actor.new (fun _ => .ok none) 3).runOn [.ok (some ⟨5, .Stop⟩)]).spans := by
  decide

/-- C4 amended: a `Stop` barrier on the very first poll makes the run
return success after exactly 1 poll with the tag still at the "no epoch
yet" sentinel; the `Stop` barrier's epoch is never written to the tag. -/
theorem actor_stop_first_poll (a : Actor) (e : Nat) (suffix : List PollResult) :
    (a.runOn (.ok (some ⟨e, .Stop⟩) :: suffix)).polls = 1 ∧
    (a.runOn (.ok (some ⟨e, .Stop⟩) :: suffix)).outcome = some RunReturn.ok ∧
    (a.runOn (.ok (some ⟨e, .Stop⟩) :: suffix)).spans = [mkSpan a.id (-1)] := by
  simp [Actor.runOn, runLoop, Mutation.isStop]

/-- C6: any number of consecutive "progressed-no-barrier" results leaves
the span history, the warnings and the outcome exactly as the rest of
the run produces them, costing one poll each; a run of only such results
never returns. -/
theorem actor_progressed_frame (a : Actor) (n : Nat) (rest : List PollResult) :
    (a.runOn (List.replicate n (.ok none) ++ rest)).spans = (a.runOn rest).spans ∧
    (a.runOn (List.replicate n (.ok none) ++ rest)).warnings
      = (a.runOn rest).warnings ∧
    (a.runOn (List.replicate n (.ok none) ++ rest)).outcome
      = (a.runOn rest).outcome ∧
    (a.runOn (List.replicate n (.ok none) ++ rest)).polls
      = n + (a.runOn rest).polls ∧
    (a.runOn (List.replicate n (.ok none))).outcome = none := by
  have h : ∀ r ∈ List.replicate n (PollResult.ok none), r.isTerminal = false := by
    intro r hr
    rw [List.eq_of_mem_replicate hr]
    rfl
  have hfm : (List.replicate n (PollResult.ok none)).filterMap
      (PollResult.tagRefresh a.id) = [] := by
    rw [List.filterMap_eq_nil_iff]
    intro r hr
    rw [List.eq_of_mem_replicate hr]
    rfl
  have hap := runLoop_append a.id (List.replicate n (.ok none)) rest h
  have hap2 := runLoop_append a.id (List.replicate n (.ok none)) [] h
  rw [List.append_nil] at hap2
  simp [Actor.runOn, hap, hap2, hfm, runLoop]

/-- `matches!` recognises exactly the `Stop` variant. -/
theorem Mutation.isStop_iff (m : Mutation) : m.isStop = true ↔ m = Mutation.Stop := by
  cases m <;> simp [Mutation.isStop]

/-- Every poll sequence falls in exactly one of the three loop shapes:
no terminal result (the loop is still polling), a `Stop` barrier after a
non-terminal prefix (successful return), or a failure after a
non-terminal prefix (error return). -/
theorem runLoop_outcome_cases (id : Nat) (rs : List PollResult) :
    ((runLoop id rs).outcome = none ∧ ∀ r ∈ rs, r.isTerminal = false) ∨
    (∃ pre e suffix,
      rs = pre ++ PollResult.ok (some ⟨e, Mutation.Stop⟩) :: suffix ∧
      (∀ r ∈ pre, r.isTerminal = false) ∧
      (runLoop id rs).outcome = some RunReturn.ok) ∨
    (∃ pre er suffix,
      rs = pre ++ PollResult.err er :: suffix ∧
      (∀ r ∈ pre, r.isTerminal = false) ∧
      (runLoop id rs).outcome = some (RunReturn.error er)) := by
  induction rs with
  | nil => exact Or.inl ⟨rfl, by simp⟩
  | cons r rest ih =>
    cases r with
    | ok ob =>
      cases ob with
      | some b =>
        obtain ⟨ep, mu⟩ := b
        by_cases hb : mu.isStop
        · have hbm := (Mutation.isStop_iff mu).mp hb
          subst hbm
          refine Or.inr (Or.inl ⟨[], ep, rest, by simp, by simp, ?_⟩)
          simp [runLoop, Mutation.isStop]
        · have hnt : (PollResult.ok (some ⟨ep, mu⟩)).isTerminal = false := by
            simpa [PollResult.isTerminal] using hb
          have hout : (runLoop id (PollResult.ok (some ⟨ep, mu⟩) :: rest)).outcome
              = (runLoop id rest).outcome := by
            simp [runLoop, hb]
          rcases ih with ⟨hnone, hall⟩ | ⟨pre, e, suffix, heq, hpre, ho⟩ |
              ⟨pre, er, suffix, heq, hpre, ho⟩
          · refine Or.inl ⟨hout.trans hnone, ?_⟩
            intro x hx
            rcases List.mem_cons.mp hx with rfl | hx
            · exact hnt
            · exact hall x hx
          · refine Or.inr (Or.inl ⟨PollResult.ok (some ⟨ep, mu⟩) :: pre, e, suffix,
              by simp [heq], ?_, hout.trans ho⟩)
            intro x hx
            rcases List.mem_cons.mp hx with rfl | hx
            · exact hnt
            · exact hpre x hx
          · refine Or.inr (Or.inr ⟨PollResult.ok (some ⟨ep, mu⟩) :: pre, er, suffix,
              by simp [heq], ?_, hout.trans ho⟩)
            intro x hx
            rcases List.mem_cons.mp hx with rfl | hx
            · exact hnt
            · exact hpre x hx
      | none =>
        have hout : (runLoop id (PollResult.ok none :: rest)).outcome
            = (runLoop id rest).outcome := by
          simp [runLoop]
        rcases ih with ⟨hnone, hall⟩ | ⟨pre, e, suffix, heq, hpre, ho⟩ |
            ⟨pre, er, suffix, heq, hpre, ho⟩
        · refine Or.inl ⟨hout.trans hnone, ?_⟩
          intro x hx
          rcases List.mem_cons.mp hx with rfl | hx
          · rfl
          · exact hall x hx
        · refine Or.inr (Or.inl ⟨PollResult.ok none :: pre, e, suffix,
            by simp [heq], ?_, hout.trans ho⟩)
          intro x hx
          rcases List.mem_cons.mp hx with rfl | hx
          · rfl
          · exact hpre x hx
        · refine Or.inr (Or.inr ⟨PollResult.ok none :: pre, er, suffix,
            by simp [heq], ?_, hout.trans ho⟩)
          intro x hx
          rcases List.mem_cons.mp hx with rfl | hx
          · rfl
          · exact hpre x hx
    | err e2 =>
      exact Or.inr (Or.inr ⟨[], e2, rest, by simp, by simp, by simp [runLoop]⟩)

/-- C5: `Actor::run` has exactly the two advertised exits: it returns
`Ok(())` iff the sequence reaches a `Stop` barrier with only
non-terminal results before it, it returns `Err(e)` iff the sequence
reaches the failure `e` with only non-terminal results before it, and a
sequence with neither a `Stop` barrier nor a failure leaves the loop
still running (no return at all). -/
theorem actor_run_outcome_characterisation (a : Actor) (rs : List PollResult) :
    ((a.runOn rs).outcome = some RunReturn.ok ↔
      ∃ pre e suffix,
        rs = pre ++ PollResult.ok (some ⟨e, Mutation.Stop⟩) :: suffix ∧
        ∀ r ∈ pre, r.isTerminal = false) ∧
    (∀ er, (a.runOn rs).outcome = some (RunReturn.error er) ↔
      ∃ pre suffix,
        rs = pre ++ PollResult.err er :: suffix ∧
        ∀ r ∈ pre, r.isTerminal = false) ∧
    ((∀ r ∈ rs, r.isTerminal = false) → (a.runOn rs).outcome = none) := by
  have hproj : (a.runOn rs).outcome = (runLoop a.id rs).outcome := rfl
  refine ⟨?_, ?_, ?_⟩
  · constructor
    · intro hok
      rw [hproj] at hok
      rcases runLoop_outcome_cases a.id rs with ⟨hnone, -⟩ |
          ⟨pre, e, suffix, heq, hpre, -⟩ | ⟨pre, er, suffix, heq, hpre, ho⟩
      · rw [hnone] at hok
        exact Option.noConfusion hok
      · exact ⟨pre, e, suffix, heq, hpre⟩
      · rw [ho] at hok
        injection hok with hok'
        exact RunReturn.noConfusion hok'
    · rintro ⟨pre, e, suffix, rfl, hpre⟩
      rw [hproj, runLoop_append a.id pre _ hpre]
      simp [runLoop, Mutation.isStop]
  · intro er
    constructor
    · intro herr
      rw [hproj] at herr
      rcases runLoop_outcome_cases a.id rs with ⟨hnone, -⟩ |
          ⟨pre, e, suffix, heq, hpre, ho⟩ | ⟨pre, er', suffix, heq, hpre, ho⟩
      · rw [hnone] at herr
        exact Option.noConfusion herr
      · rw [ho] at herr
        injection herr with herr'
        exact RunReturn.noConfusion herr'
      · rw [ho] at herr
        injection herr with herr'
        injection herr' with herr''
        exact ⟨pre, suffix, by rw [heq, herr''], hpre⟩
    · rintro ⟨pre, suffix, rfl, hpre⟩
      rw [hproj, runLoop_append a.id pre _ hpre]
      simp [runLoop]
  · intro hall
    rw [hproj]
    have := runLoop_append a.id rs [] hall
    rw [List.append_nil] at this
    rw [this]
    rfl

/-- C5 witness: a sequence of only non-terminal results (two progressed
results and one non-`Stop` barrier) makes the loop keep running — no
return value exists yet. -/
theorem actor_run_outcome_characterisation_witness :
    ((Actor.new (fun _ => .ok none) 9).runOn
        [.ok none, .ok (some ⟨1, .Nothing⟩), .ok none]).outcome = none :=
  (actor_run_outcome_characterisation (Actor.new (fun _ => .ok none) 9)
      [.ok none, .ok (some ⟨1, .Nothing⟩), .ok none]).2.2 (by decide)

/-- The loop's behaviour is unchanged under pointwise replacement of
non-`Stop` mutation values. -/
theorem runLoop_mutation_agnostic (id : Nat) (rs1 rs2 : List PollResult)
    (h : List.Forall₂ mutationAgnostic rs1 rs2) :
    runLoop id rs1 = runLoop id rs2 := by
  induction h with
  | nil => rfl
  | cons hr _ ih =>
    rcases hr with rfl | ⟨e, m1, m2, hm1, hm2, rfl, rfl⟩
    · rename_i r l1 l2 _
      cases r with
      | ok ob =>
        cases ob with
        | some b =>
          by_cases hb : b.mutation.isStop
          · simp [runLoop, hb]
          · simp [runLoop, hb, ih]
        | none => simp [runLoop, ih]
      | err e2 => simp [runLoop]
    · simp [runLoop, hm1, hm2, ih]

/-- C7: the loop inspects a barrier's mutation only to test whether it
is `Stop` — runs over sequences that differ only in non-`Stop` mutation
values perform the same polls, bind the same spans, log the same
warnings and return the same result. -/
theorem actor_mutation_opaque (a : Actor) (rs1 rs2 : List PollResult)
    (h : List.Forall₂ mutationAgnostic rs1 rs2) :
    a.runOn rs1 = a.runOn rs2 := by
  unfold Actor.runOn
  rw [runLoop_mutation_agnostic a.id rs1 rs2 h]

/-- C7 witness: replacing barrier(1, None) with barrier(1, Other 99)
leaves the whole run trace unchanged. -/
theorem actor_mutation_opaque_witness :
    (Actor.new (fun _ => .ok none) 2).runOn
        [.ok (some ⟨1, .Nothing⟩), .ok (some ⟨2, .Stop⟩)]
      = (Actor.new (fun _ => .ok none) 2).runOn
        [.ok (some ⟨1, .Other 99⟩), .ok (some ⟨2, .Stop⟩)] :=
  actor_mutation_opaque (Actor.new (fun _ => .ok none) 2) _ _
    (List.Forall₂.cons (Or.inr ⟨1, .Nothing, .Other 99, rfl, rfl, rfl, rfl⟩)
      (List.Forall₂.cons (Or.inl rfl) List.Forall₂.nil))

/-- Every span the loop binds carries the actor's own identity, both in
the `actor_id` field and in the derived span name. -/
theorem runLoop_spans_actorId (id : Nat) (rs : List PollResult) :
    ∀ s ∈ (runLoop id rs).spans, s.actorId = id ∧ s.name = spanName id := by
  induction rs with
  | nil =>
    intro s hs
    simp [runLoop] at hs
  | cons r rest ih =>
    cases r with
    | ok ob =>
      cases ob with
      | some b =>
        by_cases hb : b.mutation.isStop
        · intro s hs
          simp [runLoop, hb] at hs
        · intro s hs
          simp only [runLoop, hb, Bool.false_eq_true, if_false, List.mem_cons] at hs
          rcases hs with rfl | hs
          · exact ⟨rfl, rfl⟩
          · exact ih s hs
      | none =>
        intro s hs
        exact ih s (by simpa [runLoop] using hs)
    | err e =>
      intro s hs
      simp [runLoop] at hs

/-- C8: `Actor::new` is a total, effect-free field assignment — it
stores exactly the given consumer and id — and the id then stays
immutable: every span the run binds still carries it unchanged. -/
theorem actor_new_construction (c : Nat → PollResult) (i : Nat)
    (rs : List PollResult) :
    (Actor.new c i).id = i ∧ (Actor.new c i).consumer = c ∧
    ∀ s ∈ ((Actor.new c i).runOn rs).spans,
      s.actorId = i ∧ s.name = spanName i := by
  refine ⟨rfl, rfl, ?_⟩
  intro s hs
  simp only [Actor.runOn, List.mem_cons] at hs
  rcases hs with rfl | hs
  · exact ⟨rfl, rfl⟩
  · exact runLoop_spans_actorId i rs s hs

/-- C8 witness: a concrete construction stores id 42 and its run binds
only spans tagged with actor 42. -/
theorem actor_new_construction_witness :
    (Actor.new (fun _ => .ok none) 42).id = 42 ∧
    (Actor.new (fun _ => .ok none) 42).consumer = (fun _ => .ok none) ∧
    ∀ s ∈ ((Actor.new (fun _ => .ok none) 42).runOn
        [.ok (some ⟨1, .Nothing⟩)]).spans,
      s.actorId = 42 ∧ s.name = spanName 42 :=
  actor_new_construction (fun _ => .ok none) 42 [.ok (some ⟨1, .Nothing⟩)]

/-- C9: `Actor::run` is deterministic in the consumer's answers — two
actors with the same id whose consumers answer identically over the
polled range produce identical traces (polls, spans, warnings and
result). -/
theorem actor_run_deterministic (c1 c2 : Nat → PollResult) (i fuel : Nat)
    (h : ∀ k, k < fuel → c1 k = c2 k) :
    (Actor.new c1 i).run fuel = (Actor.new c2 i).run fuel := by
  show (Actor.new c1 i).runOn ((List.range fuel).map c1)
      = (Actor.new c2 i).runOn ((List.range fuel).map c2)
  have hmap : (List.range fuel).map c1 = (List.range fuel).map c2 := by
    apply List.map_congr_left
    intro k hk
    exact h k (List.mem_range.mp hk)
  rw [hmap]
  rfl

/-- C9 witness: two consumers that agree on their first two answers but
differ later give identical traces for a 2-poll run. -/
theorem actor_run_deterministic_witness :
    (Actor.new (fun _ => .ok none) 5).run 2
      = (Actor.new (fun k => if k < 3 then .ok none else .err 0) 5).run 2 :=
  actor_run_deterministic (fun _ => .ok none)
    (fun k => if k < 3 then .ok none else .err 0) 5 2
    (fun k hk => by
      have h3 : k < 3 := by omega
      simp [h3])

/-- C10: `Parquet` is the only `FileFormat` variant, so the file-format
assertion at the start of `do_execute` passes for every constructible
executor — it can never panic on that check. -/
theorem s3_file_scan_format_assertion_never_fails (e : S3FileScanExecutor) :
    e.formatAssertion = true ∧ ∀ f : FileFormat, f = FileFormat.Parquet := by
  constructor
  · obtain ⟨f, loc, r, ak, sk, bs, sch, idn⟩ := e
    cases f
    rfl
  · intro f
    cases f
    rfl

/-- Sanity check: the full trace of Scenario A, evaluated concretely. -/
theorem sanity_scenario_A :
    (Actor.new (fun _ => .ok none) 1).runOn
      [.ok none, .ok (some ⟨1, .Nothing⟩), .ok none, .ok (some ⟨2, .Stop⟩)] =
      ⟨4, [mkSpan 1 (-1), mkSpan 1 1], [], some .ok⟩ := by decide

/-- Sanity check: the full trace of Scenario B, evaluated concretely. -/
theorem sanity_scenario_B :
    (Actor.new (fun _ => .ok none) 1).runOn
      [.ok (some ⟨1, .Nothing⟩), .err 42] =
      ⟨2, [mkSpan 1 (-1), mkSpan 1 1], [42], some (.error 42)⟩ := by decide

/-- Sanity check: the full trace of Scenario C, evaluated concretely. -/
theorem sanity_scenario_C :
    (Actor.new (fun _ => .ok none) 3).runOn [.ok (some ⟨5, .Stop⟩)] =
      ⟨1, [mkSpan 3 (-1)], [], some .ok⟩ := by decide
